import Mathlib

/-!
Verification development for the schema-metadata cache of the sqls
language server (package `internal/database`).

Part A embeds the foreign-key grouping algorithm `parseForeignKeys`
(src/unnamed/part_000, lines 208-264).  The SQL row cursor is embedded
as a list of already-scanned rows (a `rows.Scan` failure aborts the Go
function with an error before any grouping is observable, so the claims
about grouping are about successfully scanned streams); the result-set
shape `len(columns) == 6` is a single flag for the whole stream.  The
Go code dereferences the nil pointer `cur` when the very first row has
both an empty constraint id and an empty table name (the zero values of
`prevFk`/`prevTable`), which is embedded as `Option.none`.

Part B embeds the refresh worker (src/internal/database/worker.go).
-/

namespace Sqls

/-- `ColumnBase` (src/unnamed/part_000, lines 43-47). -/
structure ColumnBase where
  Schema : String
  Table : String
  Name : String
deriving DecidableEq, Repr

/-- `type ForeignKey [][2]*ColumnBase` (src/unnamed/part_000, line 58):
an ordered list of (local, referenced) column pairs. -/
abbrev ForeignKey := List (ColumnBase × ColumnBase)

/-- `fkItemDesc` (src/unnamed/part_000, lines 60-68): one scanned row of
the foreign-key introspection query.  In the five-column result shape
the `refSchema` field is not scanned (the Go code overwrites it with
`schemaName`); the field is present here but ignored in that shape. -/
structure fkItemDesc where
  fkID : String
  table : String
  column : String
  refTable : String
  refColumn : String
  refSchema : String
deriving DecidableEq, Repr

/-- The (local, referenced) column pair built from one row
(src/unnamed/part_000, lines 242-248): the local side always takes
`schemaName`; the referenced side takes the row's `refSchema` in the
six-column shape and `schemaName` otherwise (line 237). -/
def fkPairOfRow (sixCols : Bool) (schemaName : String) (r : fkItemDesc) :
    ColumnBase × ColumnBase :=
  (⟨schemaName, r.table, r.column⟩,
   ⟨if sixCols then r.refSchema else schemaName, r.refTable, r.refColumn⟩)

/-- The grouping loop of `parseForeignKeys` (src/unnamed/part_000,
lines 216-262), with the loop state made explicit: `prevFk`/`prevTable`
are the previous row's key, `cur` the relation in progress (`none` for
the nil pointer), `acc` the flushed relations `retVal`.  Returns `none`
exactly where the Go code dereferences the nil `cur`. -/
def parseFkGo (sixCols : Bool) (schemaName : String) :
    List fkItemDesc → String → String → Option ForeignKey →
    List ForeignKey → Option (List ForeignKey)
  | [], _, _, none, acc => some acc
  | [], _, _, some g, acc => some (acc ++ [g])
  | r :: rest, prevFk, prevTable, cur, acc =>
    let p := fkPairOfRow sixCols schemaName r
    if r.fkID ≠ prevFk ∨ r.table ≠ prevTable then
      let acc' := match cur with
        | none => acc
        | some g => acc ++ [g]
      parseFkGo sixCols schemaName rest r.fkID r.table (some [p]) acc'
    else
      match cur with
      | none => none
      | some g => parseFkGo sixCols schemaName rest r.fkID r.table (some (g ++ [p])) acc

/-- `parseForeignKeys` (src/unnamed/part_000, lines 208-264) on a
successfully scanned row stream.  `prevFk`, `prevTable` start as the
empty string and `cur` as the nil pointer. -/
def parseForeignKeys (sixCols : Bool) (rows : List fkItemDesc)
    (schemaName : String) : Option (List ForeignKey) :=
  parseFkGo sixCols schemaName rows "" "" none []

/-- The `(constraint id, table)` key rows are grouped by. -/
def fkKey (r : fkItemDesc) : String × String := (r.fkID, r.table)

/-- One step of the specification-side run decomposition: prepend row
`r` to a run decomposition, merging it into the first run when it shares
its `(constraint id, table)` key.  (The `[] :: _` case is unreachable:
run decompositions never contain an empty run.) -/
def runsCons (r : fkItemDesc) : List (List fkItemDesc) → List (List fkItemDesc)
  | [] => [[r]]
  | [] :: rs => [r] :: rs
  | (r2 :: run) :: rs =>
    if fkKey r = fkKey r2 then (r :: r2 :: run) :: rs
    else [r] :: (r2 :: run) :: rs

/-- Specification-side notion of the maximal contiguous runs of a row
stream: consecutive rows sharing the same `(constraint id, table)` key
belong to one run. -/
def runs : List fkItemDesc → List (List fkItemDesc)
  | [] => []
  | r :: rest => runsCons r (runs rest)

/-! Concrete rows used by witnesses and counterexamples.  `exampleRows`
is the example stream of spec section 8 (two maximal runs); `rowBad`
carries the `("", "")` key that collides with the zero values of
`prevFk`/`prevTable`. -/

def rowA : fkItemDesc := ⟨"fk1", "T", "a", "U", "x", "extra"⟩

def rowB : fkItemDesc := ⟨"fk1", "T", "b", "U", "y", "extra"⟩

def rowC : fkItemDesc := ⟨"fk2", "T", "c", "V", "z", "other"⟩

def rowBad : fkItemDesc := ⟨"", "", "c", "V", "z", "extra"⟩

def exampleRows : List fkItemDesc := [rowA, rowB, rowC]

/-- The grouping of `exampleRows` in the five-column shape. -/
def relsFive : List ForeignKey :=
  [[(⟨"public", "T", "a"⟩, ⟨"public", "U", "x"⟩),
    (⟨"public", "T", "b"⟩, ⟨"public", "U", "y"⟩)],
   [(⟨"public", "T", "c"⟩, ⟨"public", "V", "z"⟩)]]

/-- The grouping of `exampleRows` in the six-column shape. -/
def relsSix : List ForeignKey :=
  [[(⟨"public", "T", "a"⟩, ⟨"extra", "U", "x"⟩),
    (⟨"public", "T", "b"⟩, ⟨"extra", "U", "y"⟩)],
   [(⟨"public", "T", "c"⟩, ⟨"other", "V", "z"⟩)]]

/-- The relations the grouping loop still has to produce, given the
relation in progress `g`, the previous row's key `k`, and the run
decomposition of the remaining rows. -/
def consRuns (f : fkItemDesc → ColumnBase × ColumnBase) (g : ForeignKey)
    (k : String × String) : List (List fkItemDesc) → List ForeignKey
  | [] => [g]
  | [] :: _ => [g]
  | (r :: run) :: rs =>
    if fkKey r = k then
      (g ++ (r :: run).map f) :: rs.map (fun q => q.map f)
    else
      g :: (((r :: run) :: rs).map (fun q => q.map f))

/-!
Part B: the refresh worker (src/internal/database/worker.go).

The worker runs one background goroutine; its loop body and the
caller-side `ReCache` are embedded as pure state transformers on a
`Worker` record, and the interleaving of the two threads as a labelled
step relation on a `Config`.  The mutex `lock` serializes the cache
writes that the embedding performs atomically; the `atomic.Bool`
`isUpdated` and the channel occupancy are plain fields of the state.
The `DBCache` aggregate and the cache generator are not under src/ and
are modelled from the spec (doc comments below).
-/

/-- `ColumnDesc` (src/unnamed/part_000, lines 49-56).  The Go field
`Type` is spelled `typ` (`Type` is reserved in Lean); `sql.NullString`
is `Option String`. -/
structure ColumnDesc extends ColumnBase where
  typ : String
  Null : String
  Key : String
  Default : Option String
  Extra : String
deriving DecidableEq, Repr

/-- The worker's column sub-map `map[string][]*ColumnDesc`, embedded as
an association list. -/
abbrev ColumnsMap := List (String × List ColumnDesc)

/-- The worker's foreign-key sub-map
`map[string]map[string][]*ForeignKey`, embedded as a nested
association list. -/
abbrev ForeignKeysMap := List (String × List (String × List ForeignKey))

instance : DecidableEq (List (String × List ForeignKey)) :=
  inferInstance

instance : DecidableEq ForeignKeysMap :=
  inferInstance

/-- Errors surfaced by the repository/generator.  `notImplementation`
embeds `ErrNotImplementation` (src/unnamed/part_000, line 16); other
failures carry their message. -/
inductive DBError where
  | notImplementation
  | queryError (msg : String)
deriving DecidableEq, Repr

/-- Modelled from the spec: the `DBCache` aggregate snapshot (spec
section 3, "SchemaCache").  Its Go definition is not under src/;
worker.go reads and writes the fields `ColumnsWithParent` and
`ForeignKeys` (lines 45 and 53), and the primary refresh builds the
topology fields (schema names and per-schema table lists). -/
structure DBCache where
  Schemas : List String
  SchemaTables : List (String × List String)
  ColumnsWithParent : ColumnsMap
  ForeignKeys : ForeignKeysMap
deriving DecidableEq

deriving instance DecidableEq for Except

/-- Modelled from the spec: a bound repository together with the
outcome of the two generator phases run against it
(`NewDBCacheUpdater(w.dbRepo)` and its `GenerateDBCachePrimary` /
`GenerateDBCacheSecondary` are not under src/).  Per spec sections 4.3
and 4.4, the primary phase builds a brand-new cache from the topology
queries or fails with the repository error, and the secondary phase
queries columns and foreign keys, producing the two sub-maps or
failing; each phase is a possibly-failing remote call whose outcome is
abstracted as a field. -/
structure DBRepository where
  primaryResult : Except DBError DBCache
  secondaryResult : Except DBError (ColumnsMap × ForeignKeysMap)
deriving DecidableEq

/-- Modelled from the spec: `GenerateDBCachePrimary` returns the new
cache or the underlying repository error. -/
def generateDBCachePrimary (repo : DBRepository) : Except DBError DBCache :=
  repo.primaryResult

/-- Modelled from the spec: `GenerateDBCacheSecondary` returns the two
sub-maps together with the error of the Go triple
`(col, fksCache, err)`; on failure the value results are the Go zero
values (nil maps, embedded as the empty maps). -/
def generateDBCacheSecondary (repo : DBRepository) :
    (ColumnsMap × ForeignKeysMap) × Option DBError :=
  match repo.secondaryResult with
  | Except.ok cf => (cf, none)
  | Except.error e => (([], []), some e)

/-- `Worker` (worker.go, lines 10-18).  `updatePending` is the
occupancy of the capacity-one buffered channel `update`
(`make(chan struct{}, 1)`, line 23), `doneClosed` the state of `done`,
`isUpdated` the `atomic.Bool` (zero value `false`).  The mutex `lock`
has no run-time content in this sequentially-consistent embedding: the
writes it guards are single atomic updates below. -/
structure Worker where
  dbRepo : Option DBRepository
  dbCache : Option DBCache
  updatePending : Bool
  doneClosed : Bool
  isUpdated : Bool
deriving DecidableEq

/-- `NewWorker` (worker.go, lines 20-25): nil repository, nil cache,
empty channels, `isUpdated` at its zero value. -/
def NewWorker : Worker :=
  { dbRepo := none, dbCache := none, updatePending := false,
    doneClosed := false, isUpdated := false }

/-- `Worker.UpdateCompleted` (worker.go, lines 31-33): lock-free read
of the readiness flag. -/
def Worker.UpdateCompleted (w : Worker) : Bool :=
  w.isUpdated

/-- `Worker.setCache` (worker.go, lines 35-39). -/
def Worker.setCache (w : Worker) (c : DBCache) : Worker :=
  { w with dbCache := some c }

/-- `Worker.setColumnCache` (worker.go, lines 41-47): replaces the
column sub-map of the installed cache; a guarded no-op when no cache is
installed (`w.dbCache != nil`). -/
def Worker.setColumnCache (w : Worker) (col : ColumnsMap) : Worker :=
  match w.dbCache with
  | none => w
  | some c => { w with dbCache := some { c with ColumnsWithParent := col } }

/-- `Worker.setForeignKeysCache` (worker.go, lines 49-55): replaces the
foreign-key sub-map of the installed cache; a guarded no-op when no
cache is installed. -/
def Worker.setForeignKeysCache (w : Worker) (fksCache : ForeignKeysMap) : Worker :=
  match w.dbCache with
  | none => w
  | some c => { w with dbCache := some { c with ForeignKeys := fksCache } }

/-- `w.update <- struct{}{}` (worker.go, line 106, the body of
`updateAdditionalCache`): a send on the capacity-one buffered channel.
The send completes immediately iff the buffer is empty; when a request
is already pending the caller blocks until the background loop drains
the slot, embedded as `none`. -/
def Worker.sendUpdate (w : Worker) : Option Worker :=
  if w.updatePending then none
  else some { w with updatePending := true }

/-- `Worker.updateAllCache` (worker.go, lines 94-103): run the primary
generator against the currently bound repository; on success install
the brand-new cache, on failure return the error and leave the worker
untouched.  (The `none` branch is unreachable from `ReCache`, which
binds the repository first; a nil repository would make the generator
fail.) -/
def Worker.updateAllCache (w : Worker) : Worker × Option DBError :=
  match w.dbRepo with
  | none => (w, some (DBError.queryError "nil repository"))
  | some repo =>
    match generateDBCachePrimary repo with
    | Except.error e => (w, some e)
    | Except.ok cache => (w.setCache cache, none)

/-- `Worker.ReCache` (worker.go, lines 85-92): bind the new repository,
run the primary refresh synchronously, and on success request a
secondary refresh.  The result is the final worker state paired with
the returned error; `none` is the case in which the caller is blocked
on the full `update` channel (worker.go line 106) and the call has not
returned. -/
def Worker.reCache (w : Worker) (repo : DBRepository) :
    Option (Worker × Option DBError) :=
  let w1 : Worker := { w with dbRepo := some repo }
  match w1.updateAllCache with
  | (w2, some e) => some (w2, some e)
  | (w2, none) => w2.sendUpdate.map (fun w3 => (w3, none))

/-- The secondary-refresh cycle body (worker.go, lines 65-74): clear
the readiness flag, run the secondary generator against the currently
bound repository, install both sub-maps unconditionally (the generator
error is only logged, line 70), then set the readiness flag. -/
def applyCycleWrites (w : Worker) (repo : DBRepository) : Worker :=
  let w1 : Worker := { w with isUpdated := false }
  let out := generateDBCacheSecondary repo
  let w2 := (w1.setColumnCache out.1.1).setForeignKeysCache out.1.2
  { w2 with isUpdated := true }

/-- One full `case <-w.update` iteration of `Worker.Start`
(worker.go, lines 65-75) as a single transformer: `none` when no
repository is bound (the generator would dereference a nil repository;
unreachable in the worker protocol, where the update signal follows a
successful bind). -/
def Worker.runSecondaryCycle (w : Worker) : Option Worker :=
  match w.dbRepo with
  | none => none
  | some repo => some (applyCycleWrites w repo)

/-- A system configuration: the shared worker state, whether the
background goroutine is inside a cycle body (`running`), and two ghost
counters instrumenting the trace (number of completed sends into the
`update` channel, number of completed cycle iterations). -/
structure Config where
  worker : Worker
  running : Bool
  reqCount : Nat
  cycleCount : Nat
deriving DecidableEq

/-- The initial configuration: a fresh worker, loop waiting. -/
def initConfig : Config :=
  { worker := NewWorker, running := false, reqCount := 0, cycleCount := 0 }

/-- The interleaved small-step semantics of the worker protocol.
`bindOk`/`bindErr` are a completed `ReCache` call on the caller's
thread (`bindOk` requires the send at worker.go line 106 to complete,
i.e. the update slot to be free).  `beginCycle` is the background loop
receiving from `update` and clearing the readiness flag (worker.go
lines 65-66); `finishCycle` is the rest of the iteration: the
generator run, both sub-map installs and the readiness store
(worker.go lines 67-74). -/
inductive Step : Config → Config → Prop where
  | bindOk (c : Config) (repo : DBRepository) (w2 : Worker)
      (h : c.worker.reCache repo = some (w2, none)) :
      Step c { worker := w2, running := c.running,
               reqCount := c.reqCount + 1, cycleCount := c.cycleCount }
  | bindErr (c : Config) (repo : DBRepository) (w2 : Worker) (e : DBError)
      (h : c.worker.reCache repo = some (w2, some e)) :
      Step c { c with worker := w2 }
  | beginCycle (c : Config)
      (h : c.worker.updatePending = true) (hr : c.running = false) :
      Step c { c with
               worker := { c.worker with updatePending := false, isUpdated := false },
               running := true }
  | finishCycle (c : Config) (repo : DBRepository)
      (h : c.running = true) (hrepo : c.worker.dbRepo = some repo) :
      Step c { worker := applyCycleWrites c.worker repo, running := false,
               reqCount := c.reqCount, cycleCount := c.cycleCount + 1 }

/-- Reachability along the worker protocol. -/
def Reach : Config → Config → Prop :=
  Relation.ReflTransGen Step


/-! Concrete repository/worker instances used by witnesses and
counterexamples. -/

def colIdDesc : ColumnDesc :=
  { Schema := "public", Table := "clients", Name := "id",
    typ := "int", Null := "NO", Key := "YES", Default := none, Extra := "" }

def exampleColumns : ColumnsMap := [("clients", [colIdDesc])]

def exampleFks : ForeignKeysMap := [("public", [("clients", relsFive)])]

/-- A topology-only cache, as built by a primary refresh. -/
def cacheTop : DBCache :=
  { Schemas := ["public", "extra"],
    SchemaTables := [("public", ["clients", "client_types"])],
    ColumnsWithParent := [], ForeignKeys := [] }

/-- `cacheTop` with both detail sub-maps populated. -/
def cacheFull : DBCache :=
  { cacheTop with ColumnsWithParent := exampleColumns, ForeignKeys := exampleFks }

/-- A healthy repository: both generator phases succeed. -/
def repoOk : DBRepository :=
  ⟨Except.ok cacheTop, Except.ok (exampleColumns, exampleFks)⟩

/-- An unreachable data source: both generator phases fail. -/
def repoDown : DBRepository :=
  ⟨Except.error (DBError.queryError "connection refused"),
   Except.error (DBError.queryError "connection refused")⟩

/-- A repository whose primary phase succeeds but whose secondary
(detail) phase fails. -/
def repoFkFail : DBRepository :=
  ⟨Except.ok cacheTop, Except.error (DBError.queryError "foreign key query failed")⟩

/-- A worker with an installed, fully populated cache. -/
def wPrev : Worker :=
  ⟨some repoOk, some cacheFull, false, false, true⟩

/-- A worker with an installed, fully populated cache whose bound
repository fails the secondary phase. -/
def wStale : Worker :=
  ⟨some repoFkFail, some cacheFull, false, false, true⟩

/-- The configuration after one successful `ReCache` from the initial
configuration: the secondary request is pending, the loop not yet
running. -/
def cfgAfterBind : Config :=
  ⟨⟨some repoOk, some cacheTop, true, false, false⟩, false, 1, 0⟩

/-- `cfgAfterBind` after the loop dequeues the request and clears the
readiness flag. -/
def cfgMid : Config :=
  ⟨⟨some repoOk, some cacheTop, false, false, false⟩, true, 1, 0⟩

/-- `cfgMid` after the cycle body completes: detail sub-maps installed,
readiness flag set. -/
def cfgDone : Config :=
  ⟨⟨some repoOk, some cacheFull, false, false, true⟩, false, 1, 1⟩

/-- `cfgDone` after a second successful `ReCache`: a fresh secondary
request is pending while the readiness flag still reads `true`. -/
def cfgSecondBind : Config :=
  ⟨⟨some repoOk, some cacheTop, true, false, true⟩, false, 2, 1⟩

/-- The trace invariant: while the loop is inside a cycle body the
readiness flag is cleared, and the completed cycles plus the
outstanding work (pending slot, running body) never exceed the
completed requests. -/
def WorkerInv (c : Config) : Prop :=
  (c.running = true → c.worker.isUpdated = false) ∧
  c.cycleCount + (if c.worker.updatePending then 1 else 0) +
    (if c.running then 1 else 0) ≤ c.reqCount


theorem runsCons_ne_nil (r : fkItemDesc) (L : List (List fkItemDesc))
    (hL : [] ∉ L) : [] ∉ runsCons r L := by
  match L with
  | [] => simp [runsCons]
  | [] :: rs => exact absurd (List.mem_cons_self [] rs) hL
  | (r2 :: run) :: rs =>
    rw [runsCons]
    by_cases hk : fkKey r = fkKey r2
    · rw [if_pos hk]
      intro hmem
      rcases List.mem_cons.mp hmem with h1 | h2
      · exact List.cons_ne_nil _ _ h1.symm
      · exact hL (List.mem_cons_of_mem _ h2)
    · rw [if_neg hk]
      intro hmem
      rcases List.mem_cons.mp hmem with h1 | h2
      · exact List.cons_ne_nil _ _ h1.symm
      · exact hL h2

/-- A run decomposition never contains an empty run. -/
theorem runs_ne_nil (l : List fkItemDesc) : [] ∉ runs l := by
  induction l with
  | nil => simp [runs]
  | cons r rest ih => exact runsCons_ne_nil r (runs rest) ih

theorem runsCons_flatten (r : fkItemDesc) (L : List (List fkItemDesc))
    (hL : [] ∉ L) : (runsCons r L).flatten = r :: L.flatten := by
  match L with
  | [] => simp [runsCons]
  | [] :: rs => exact absurd (List.mem_cons_self [] rs) hL
  | (r2 :: run) :: rs =>
    rw [runsCons]
    by_cases hk : fkKey r = fkKey r2
    · rw [if_pos hk]; simp
    · rw [if_neg hk]; simp

/-- Flattening the run decomposition recovers the row stream: the runs
partition the stream in order. -/
theorem runs_flatten (l : List fkItemDesc) : (runs l).flatten = l := by
  induction l with
  | nil => rfl
  | cons r rest ih =>
    rw [runs, runsCons_flatten r (runs rest) (runs_ne_nil rest), ih]

theorem consRuns_append (f : fkItemDesc → ColumnBase × ColumnBase)
    (g : ForeignKey) (r : fkItemDesc) (L : List (List fkItemDesc))
    (hL : [] ∉ L) :
    consRuns f (g ++ [f r]) (fkKey r) L = consRuns f g (fkKey r) (runsCons r L) := by
  match L with
  | [] => simp [consRuns, runsCons]
  | [] :: rs => exact absurd (List.mem_cons_self [] rs) hL
  | (r2 :: run) :: rs =>
    rw [runsCons]
    by_cases hk : fkKey r = fkKey r2
    · rw [if_pos hk, consRuns, consRuns, if_pos hk.symm, if_pos rfl]
      simp
    · rw [if_neg hk, consRuns, consRuns,
        if_neg (fun h => hk h.symm), if_pos rfl]
      simp [consRuns]

theorem consRuns_single (f : fkItemDesc → ColumnBase × ColumnBase)
    (r : fkItemDesc) (L : List (List fkItemDesc)) (hL : [] ∉ L) :
    consRuns f [f r] (fkKey r) L = (runsCons r L).map (fun q => q.map f) := by
  match L with
  | [] => simp [consRuns, runsCons]
  | [] :: rs => exact absurd (List.mem_cons_self [] rs) hL
  | (r2 :: run) :: rs =>
    rw [runsCons]
    by_cases hk : fkKey r = fkKey r2
    · rw [if_pos hk, consRuns, if_pos hk.symm]
      simp
    · rw [if_neg hk, consRuns, if_neg (fun h => hk h.symm)]
      simp

theorem consRuns_ne (f : fkItemDesc → ColumnBase × ColumnBase)
    (g : ForeignKey) (k : String × String) (r : fkItemDesc)
    (L : List (List fkItemDesc)) (hk : fkKey r ≠ k) (hL : [] ∉ L) :
    consRuns f g k (runsCons r L) = g :: (runsCons r L).map (fun q => q.map f) := by
  match L with
  | [] => simp [consRuns, runsCons, if_neg hk]
  | [] :: rs => exact absurd (List.mem_cons_self [] rs) hL
  | (r2 :: run) :: rs =>
    rw [runsCons]
    by_cases hk2 : fkKey r = fkKey r2
    · rw [if_pos hk2, consRuns, if_neg hk]
    · rw [if_neg hk2, consRuns, if_neg hk]

/-- The grouping loop, from any state with a relation in progress,
produces the already flushed relations followed by one relation per run
of the remaining rows (the first run merging into the relation in
progress when it continues the previous key). -/
theorem parseFkGo_eq_consRuns (sixCols : Bool) (s : String) :
    ∀ (rows : List fkItemDesc) (pf pt : String) (g : ForeignKey)
      (acc : List ForeignKey),
    parseFkGo sixCols s rows pf pt (some g) acc =
      some (acc ++ consRuns (fkPairOfRow sixCols s) g (pf, pt) (runs rows)) := by
  intro rows
  induction rows with
  | nil => intro pf pt g acc; simp [parseFkGo, consRuns, runs]
  | cons r rest ih =>
    intro pf pt g acc
    rw [parseFkGo]
    by_cases hk : fkKey r = (pf, pt)
    · have hfk : r.fkID = pf := congrArg Prod.fst hk
      have htb : r.table = pt := congrArg Prod.snd hk
      rw [if_neg (by simp [hfk, htb])]
      rw [ih r.fkID r.table (g ++ [fkPairOfRow sixCols s r]) acc]
      show some (acc ++ consRuns (fkPairOfRow sixCols s)
          (g ++ [fkPairOfRow sixCols s r]) (fkKey r) (runs rest)) =
        some (acc ++ consRuns (fkPairOfRow sixCols s) g (pf, pt) (runs (r :: rest)))
      rw [consRuns_append (fkPairOfRow sixCols s) g r (runs rest) (runs_ne_nil rest), hk]
      rfl
    · have hC : r.fkID ≠ pf ∨ r.table ≠ pt := by
        by_contra hcon
        push_neg at hcon
        exact hk (Prod.ext hcon.1 hcon.2)
      rw [if_pos hC]
      rw [ih r.fkID r.table [fkPairOfRow sixCols s r] (acc ++ [g])]
      show some (acc ++ [g] ++ consRuns (fkPairOfRow sixCols s)
          [fkPairOfRow sixCols s r] (fkKey r) (runs rest)) =
        some (acc ++ consRuns (fkPairOfRow sixCols s) g (pf, pt) (runsCons r (runs rest)))
      rw [consRuns_single (fkPairOfRow sixCols s) r (runs rest) (runs_ne_nil rest)]
      rw [consRuns_ne (fkPairOfRow sixCols s) g (pf, pt) r (runs rest) hk
        (runs_ne_nil rest)]
      simp

/-- `parseForeignKeys` on a stream whose first row does not carry the
sentinel `("", "")` key equals one relation per maximal contiguous run,
each relation listing its rows' column pairs in stream order. -/
theorem parseForeignKeys_eq_runs (sixCols : Bool) (rows : List fkItemDesc)
    (s : String) (h : ∀ r0, rows.head? = some r0 → fkKey r0 ≠ ("", "")) :
    parseForeignKeys sixCols rows s =
      some ((runs rows).map (fun q => q.map (fkPairOfRow sixCols s))) := by
  match rows with
  | [] => rfl
  | r :: rest =>
    have hbad : fkKey r ≠ ("", "") := h r rfl
    have hC : r.fkID ≠ "" ∨ r.table ≠ "" := by
      by_contra hcon
      push_neg at hcon
      exact hbad (Prod.ext hcon.1 hcon.2)
    rw [parseForeignKeys, parseFkGo, if_pos hC]
    rw [parseFkGo_eq_consRuns sixCols s rest r.fkID r.table
      [fkPairOfRow sixCols s r] []]
    rw [show ((r.fkID, r.table) : String × String) = fkKey r from rfl]
    rw [consRuns_single (fkPairOfRow sixCols s) r (runs rest) (runs_ne_nil rest)]
    simp [runs]

/-- On a stream whose first row has both an empty constraint id and an
empty table name (matching the zero values of `prevFk`/`prevTable`),
the grouping loop dereferences the nil pointer `cur`. -/
theorem parseForeignKeys_bad_first (sixCols : Bool) (r : fkItemDesc)
    (rest : List fkItemDesc) (s : String) (h : fkKey r = ("", "")) :
    parseForeignKeys sixCols (r :: rest) s = none := by
  have hfk : r.fkID = "" := congrArg Prod.fst h
  have htb : r.table = "" := congrArg Prod.snd h
  rw [parseForeignKeys, parseFkGo, if_neg (by simp [hfk, htb])]

/-- Whenever `parseForeignKeys` returns at all, its result is the run
decomposition image. -/
theorem parseForeignKeys_some_eq (sixCols : Bool) (rows : List fkItemDesc)
    (s : String) (rels : List ForeignKey)
    (h : parseForeignKeys sixCols rows s = some rels) :
    rels = (runs rows).map (fun q => q.map (fkPairOfRow sixCols s)) := by
  match rows with
  | [] =>
    have h2 : some ([] : List ForeignKey) = some rels := h
    simp [runs, ← Option.some_inj.mp h2]
  | r :: rest =>
    by_cases hbad : fkKey r = ("", "")
    · rw [parseForeignKeys_bad_first sixCols r rest s hbad] at h
      exact absurd h (by simp)
    · rw [parseForeignKeys_eq_runs sixCols (r :: rest) s
        (by intro r0 h0; rw [List.head?_cons, Option.some_inj] at h0; rw [← h0]; exact hbad)] at h
      exact (Option.some_inj.mp h).symm

/-- C1 (amended): for every row stream whose first row does not carry
both an empty constraint id and an empty table name (on such a stream
the grouper dereferences a nil pointer instead of returning),
`parseForeignKeys` returns exactly one `ForeignKey` relation per
maximal contiguous run of rows sharing the same `(constraint id,
table)` pair, with each relation's column pairs in the order of its
run's rows; an empty row stream yields an empty relation list. -/
theorem c1_parseForeignKeys_one_relation_per_run (sixCols : Bool)
    (rows : List fkItemDesc) (s : String)
    (h : ∀ r0, rows.head? = some r0 → fkKey r0 ≠ ("", "")) :
    parseForeignKeys sixCols rows s =
      some ((runs rows).map (fun q => q.map (fkPairOfRow sixCols s))) ∧
    parseForeignKeys sixCols [] s = some [] :=
  ⟨parseForeignKeys_eq_runs sixCols rows s h, rfl⟩

theorem c1_witness :
    parseForeignKeys false exampleRows "public" =
      some ((runs exampleRows).map (fun q => q.map (fkPairOfRow false "public"))) ∧
    (runs exampleRows).length = 2 ∧
    parseForeignKeys false exampleRows "public" = some relsFive :=
  ⟨(c1_parseForeignKeys_one_relation_per_run false exampleRows "public"
      (by decide)).1, by decide, by decide⟩

/-- C1 is false as stated: the stream `[rowBad]` has exactly one
maximal contiguous run, but `parseForeignKeys` crashes on it (the Go
code dereferences the nil pointer `cur`, embedded as `none`) instead of
returning the one-relation list. -/
theorem c1_counterexample :
    parseForeignKeys false [rowBad] "public" = none ∧
    parseForeignKeys false [rowBad] "public" ≠
      some ((runs [rowBad]).map (fun q => q.map (fkPairOfRow false "public"))) :=
  ⟨rfl, by decide⟩

/-- C7: in the five-column row shape the referenced column's schema is
the `schemaName` argument (the schema being described); in the
six-column shape the referenced column's schema is the row-reported
`refSchema` (the output pairs are exactly the rows' pairs, in order,
and the pair built from a row uses the row's `refSchema`). -/
theorem c7_refSchema_default (rows : List fkItemDesc) (s : String)
    (rels : List ForeignKey) :
    (parseForeignKeys false rows s = some rels →
      ∀ fk ∈ rels, ∀ p ∈ fk, (p.2).Schema = s) ∧
    (parseForeignKeys true rows s = some rels →
      rels.flatten = rows.map (fkPairOfRow true s) ∧
      ∀ r : fkItemDesc, ((fkPairOfRow true s r).2).Schema = r.refSchema) := by
  constructor
  · intro h fk hfk p hp
    have hre := parseForeignKeys_some_eq false rows s rels h
    subst hre
    rcases List.mem_map.mp hfk with ⟨q, hq, rfl⟩
    rcases List.mem_map.mp hp with ⟨r, hr, rfl⟩
    rfl
  · intro h
    have hre := parseForeignKeys_some_eq true rows s rels h
    subst hre
    refine ⟨?_, fun r => rfl⟩
    rw [← List.map_flatten, runs_flatten]

theorem c7_witness :
    relsSix.flatten = exampleRows.map (fkPairOfRow true "public") ∧
    ((⟨"public", "V", "z"⟩ : ColumnBase)).Schema = "public" :=
  ⟨((c7_refSchema_default exampleRows "public" relsSix).2 (by decide)).1,
   (c7_refSchema_default exampleRows "public" relsFive).1 (by decide)
     [(⟨"public", "T", "c"⟩, ⟨"public", "V", "z"⟩)] (by decide)
     (⟨"public", "T", "c"⟩, ⟨"public", "V", "z"⟩) (by decide)⟩

/-- C8: every local (left-hand) column of every pair of every relation
returned by `parseForeignKeys` has its `Schema` field equal to the
`schemaName` argument, and every returned relation is non-empty. -/
theorem c8_local_schema_and_nonempty (sixCols : Bool)
    (rows : List fkItemDesc) (s : String) (rels : List ForeignKey)
    (h : parseForeignKeys sixCols rows s = some rels) :
    (∀ fk ∈ rels, fk ≠ []) ∧ (∀ fk ∈ rels, ∀ p ∈ fk, (p.1).Schema = s) := by
  have hre := parseForeignKeys_some_eq sixCols rows s rels h
  subst hre
  constructor
  · intro fk hfk
    rcases List.mem_map.mp hfk with ⟨q, hq, rfl⟩
    intro hnil
    have hq0 : q = [] := List.map_eq_nil_iff.mp hnil
    exact runs_ne_nil rows (hq0 ▸ hq)
  · intro fk hfk p hp
    rcases List.mem_map.mp hfk with ⟨q, hq, rfl⟩
    rcases List.mem_map.mp hp with ⟨r, hr, rfl⟩
    rfl

theorem c8_witness :
    ([(⟨"public", "T", "c"⟩, ⟨"public", "V", "z"⟩)] : ForeignKey) ≠ [] ∧
    ((⟨"public", "T", "c"⟩ : ColumnBase)).Schema = "public" :=
  ⟨(c8_local_schema_and_nonempty false exampleRows "public" relsFive
      (by decide)).1 [(⟨"public", "T", "c"⟩, ⟨"public", "V", "z"⟩)] (by decide),
   (c8_local_schema_and_nonempty false exampleRows "public" relsFive
      (by decide)).2 [(⟨"public", "T", "c"⟩, ⟨"public", "V", "z"⟩)] (by decide)
     (⟨"public", "T", "c"⟩, ⟨"public", "V", "z"⟩) (by decide)⟩

/-! Helper lemmas about the worker operations. -/

/-- `ReCache` against a repository whose primary phase fails: the new
repository is bound, the error is returned, nothing else changes. -/
theorem reCache_err (w : Worker) (repo : DBRepository) (e : DBError)
    (h : repo.primaryResult = Except.error e) :
    w.reCache repo = some ({ w with dbRepo := some repo }, some e) := by
  obtain ⟨dr, dc, up, dn, iu⟩ := w
  simp [Worker.reCache, Worker.updateAllCache, generateDBCachePrimary, h]

/-- `ReCache` against a repository whose primary phase succeeds, from a
worker whose update slot is free: the repository is bound, the
brand-new cache installed, the secondary request enqueued. -/
theorem reCache_ok (w : Worker) (repo : DBRepository) (cache : DBCache)
    (hp : repo.primaryResult = Except.ok cache)
    (hpend : w.updatePending = false) :
    w.reCache repo = some
      ({ w with dbRepo := some repo, dbCache := some cache,
                updatePending := true }, none) := by
  obtain ⟨dr, dc, up, dn, iu⟩ := w
  have hpend2 : up = false := hpend
  subst hpend2
  simp [Worker.reCache, Worker.updateAllCache, generateDBCachePrimary,
    Worker.setCache, Worker.sendUpdate, hp]

/-- `ReCache` against a repository whose primary phase succeeds, from a
worker whose update slot is full: the caller blocks on the send. -/
theorem reCache_blocked (w : Worker) (repo : DBRepository) (cache : DBCache)
    (hp : repo.primaryResult = Except.ok cache)
    (hpend : w.updatePending = true) :
    w.reCache repo = none := by
  obtain ⟨dr, dc, up, dn, iu⟩ := w
  have hpend2 : up = true := hpend
  subst hpend2
  simp [Worker.reCache, Worker.updateAllCache, generateDBCachePrimary,
    Worker.setCache, Worker.sendUpdate, hp]

/-- Exhaustive characterisation of a completed `ReCache` call. -/
theorem reCache_shape (w : Worker) (repo : DBRepository) (w2 : Worker)
    (r : Option DBError) (h : w.reCache repo = some (w2, r)) :
    (∃ e, r = some e ∧ repo.primaryResult = Except.error e ∧
      w2 = { w with dbRepo := some repo }) ∨
    (∃ cache, r = none ∧ repo.primaryResult = Except.ok cache ∧
      w.updatePending = false ∧
      w2 = { w with dbRepo := some repo, dbCache := some cache,
                    updatePending := true }) := by
  cases hp : repo.primaryResult with
  | error e =>
    left
    rw [reCache_err w repo e hp] at h
    have h2 := Option.some_inj.mp h
    exact ⟨e, (congrArg Prod.snd h2).symm, rfl, (congrArg Prod.fst h2).symm⟩
  | ok cache =>
    right
    cases hpend : w.updatePending with
    | true =>
      rw [reCache_blocked w repo cache hp hpend] at h
      exact absurd h (by simp)
    | false =>
      rw [reCache_ok w repo cache hp hpend] at h
      have h2 := Option.some_inj.mp h
      exact ⟨cache, (congrArg Prod.snd h2).symm, rfl, rfl,
        (congrArg Prod.fst h2).symm⟩

theorem applyCycleWrites_isUpdated (w : Worker) (repo : DBRepository) :
    (applyCycleWrites w repo).isUpdated = true := by
  obtain ⟨dr, dc, up, dn, iu⟩ := w
  cases dc <;>
    simp [applyCycleWrites, Worker.setColumnCache, Worker.setForeignKeysCache]

theorem applyCycleWrites_updatePending (w : Worker) (repo : DBRepository) :
    (applyCycleWrites w repo).updatePending = w.updatePending := by
  obtain ⟨dr, dc, up, dn, iu⟩ := w
  cases dc <;>
    simp [applyCycleWrites, Worker.setColumnCache, Worker.setForeignKeysCache]

theorem applyCycleWrites_dbRepo (w : Worker) (repo : DBRepository) :
    (applyCycleWrites w repo).dbRepo = w.dbRepo := by
  obtain ⟨dr, dc, up, dn, iu⟩ := w
  cases dc <;>
    simp [applyCycleWrites, Worker.setColumnCache, Worker.setForeignKeysCache]

/-- When a cache is installed, a cycle body replaces exactly the two
detail sub-maps with the generator's returned values and sets the
readiness flag. -/
theorem applyCycleWrites_cache_some (w : Worker) (repo : DBRepository)
    (cache : DBCache) (hc : w.dbCache = some cache) :
    (applyCycleWrites w repo).dbCache = some { cache with
      ColumnsWithParent := (generateDBCacheSecondary repo).1.1,
      ForeignKeys := (generateDBCacheSecondary repo).1.2 } := by
  obtain ⟨dr, dc, up, dn, iu⟩ := w
  have hc2 : dc = some cache := hc
  subst hc2
  simp [applyCycleWrites, Worker.setColumnCache, Worker.setForeignKeysCache]

/-- Every step of the worker protocol preserves the trace invariant. -/
theorem step_workerInv (c c2 : Config) (hstep : Step c c2)
    (ih : WorkerInv c) : WorkerInv c2 := by
  cases hstep with
  | bindOk repo w2 h =>
    rcases reCache_shape c.worker repo w2 none h with
      ⟨e, he, _, _⟩ | ⟨cache, _, hp, hpend, hw2⟩
    · exact absurd he (by simp)
    · subst hw2
      refine ⟨fun hr => ih.1 hr, ?_⟩
      have h2 := ih.2
      rw [hpend] at h2
      show c.cycleCount + (if true then 1 else 0) +
        (if c.running then 1 else 0) ≤ c.reqCount + 1
      cases hrun : c.running <;> rw [hrun] at h2 <;> simp at h2 ⊢ <;> omega
  | bindErr repo w2 e h =>
    rcases reCache_shape c.worker repo w2 (some e) h with
      ⟨e2, he, hp, hw2⟩ | ⟨cache, hnone, _, _, _⟩
    · subst hw2
      exact ⟨fun hr => ih.1 hr, ih.2⟩
    · exact absurd hnone (by simp)
  | beginCycle h hr =>
    refine ⟨fun _ => rfl, ?_⟩
    have h2 := ih.2
    rw [h, hr] at h2
    show c.cycleCount + (if false then 1 else 0) +
      (if true then 1 else 0) ≤ c.reqCount
    simp at h2 ⊢
    omega
  | finishCycle repo h hrepo =>
    refine ⟨fun hr2 => absurd hr2 (by simp), ?_⟩
    have h2 := ih.2
    rw [h] at h2
    show c.cycleCount + 1 +
      (if (applyCycleWrites c.worker repo).updatePending then 1 else 0) +
      (if false then 1 else 0) ≤ c.reqCount
    rw [applyCycleWrites_updatePending]
    cases hpend2 : c.worker.updatePending <;> rw [hpend2] at h2 <;>
      simp at h2 ⊢ <;> omega

/-- The trace invariant holds in every reachable configuration. -/
theorem reach_workerInv (c : Config) (h : Reach initConfig c) : WorkerInv c := by
  induction h with
  | refl =>
    refine ⟨fun hr => absurd hr (by decide), by decide⟩
  | tail hR hstep ih => exact step_workerInv _ _ hstep ih


/-- C2: when the primary refresh run by `ReCache` fails, the call
returns the underlying repository error and the previously installed
cache, if any, is left exactly as it was (no partial replacement): the
only field that changes is the bound repository. -/
theorem c2_reCache_failure_preserves_cache (w : Worker) (repo : DBRepository)
    (e : DBError) (h : repo.primaryResult = Except.error e) :
    w.reCache repo = some ({ w with dbRepo := some repo }, some e) ∧
    ∀ w2 r, w.reCache repo = some (w2, r) →
      w2.dbCache = w.dbCache ∧ r = some e := by
  have hmain := reCache_err w repo e h
  refine ⟨hmain, ?_⟩
  intro w2 r h2
  rw [hmain] at h2
  have h3 := Option.some_inj.mp h2
  have hw : ({ w with dbRepo := some repo } : Worker) = w2 := congrArg Prod.fst h3
  exact ⟨by rw [← hw], (congrArg Prod.snd h3).symm⟩

theorem c2_witness :
    wPrev.reCache repoDown =
      some ({ wPrev with dbRepo := some repoDown },
            some (DBError.queryError "connection refused")) ∧
    wPrev.dbCache = some cacheFull :=
  ⟨(c2_reCache_failure_preserves_cache wPrev repoDown
      (DBError.queryError "connection refused") rfl).1, rfl⟩

/-- C9: `ReCache` stores the new repository into the worker before the
primary refresh, so a failed primary refresh leaves the worker bound to
the new repository while the cache is preserved; a subsequent secondary
cycle runs the generator against the newly bound repository. -/
theorem c9_rebind_survives_failure (w : Worker) (repo : DBRepository)
    (e : DBError) (h : repo.primaryResult = Except.error e) :
    w.reCache repo = some ({ w with dbRepo := some repo }, some e) ∧
    ({ w with dbRepo := some repo } : Worker).dbRepo = some repo ∧
    ({ w with dbRepo := some repo } : Worker).dbCache = w.dbCache ∧
    ({ w with dbRepo := some repo } : Worker).runSecondaryCycle =
      some (applyCycleWrites { w with dbRepo := some repo } repo) :=
  ⟨reCache_err w repo e h, rfl, rfl, rfl⟩

theorem c9_witness :
    wPrev.reCache repoDown =
      some (⟨some repoDown, some cacheFull, false, false, true⟩,
            some (DBError.queryError "connection refused")) ∧
    (⟨some repoDown, some cacheFull, false, false, true⟩ : Worker).runSecondaryCycle =
      some (applyCycleWrites ⟨some repoDown, some cacheFull, false, false, true⟩ repoDown) :=
  ⟨(c9_rebind_survives_failure wPrev repoDown
      (DBError.queryError "connection refused") rfl).1,
   (c9_rebind_survives_failure wPrev repoDown
      (DBError.queryError "connection refused") rfl).2.2.2⟩

/-- C10: when no cache has ever been installed, a completing secondary
cycle does not fault and changes nothing but the readiness flag — the
sub-map writes are guarded no-ops on a nil cache pointer. -/
theorem c10_cycle_without_cache (w : Worker) (repo : DBRepository)
    (hc : w.dbCache = none) (hr : w.dbRepo = some repo) :
    w.runSecondaryCycle = some { w with isUpdated := true } := by
  obtain ⟨dr, dc, up, dn, iu⟩ := w
  have hc2 : dc = none := hc
  have hr2 : dr = some repo := hr
  subst hc2
  subst hr2
  simp [Worker.runSecondaryCycle, applyCycleWrites,
    Worker.setColumnCache, Worker.setForeignKeysCache]

theorem c10_witness :
    (⟨some repoDown, none, false, false, false⟩ : Worker).runSecondaryCycle =
      some ⟨some repoDown, none, false, false, true⟩ :=
  c10_cycle_without_cache ⟨some repoDown, none, false, false, false⟩ repoDown rfl rfl

/-- C6: a failing detail query is never propagated past the worker —
the cycle still completes (its transformer is total on workers with a
bound repository and returns no error; the generator's error is only
logged) and the readiness flag is set at the end of the cycle. -/
theorem c6_secondary_failure_swallowed (w : Worker) (repo : DBRepository)
    (e : DBError) (hr : w.dbRepo = some repo)
    (hs : repo.secondaryResult = Except.error e) :
    w.runSecondaryCycle = some (applyCycleWrites w repo) ∧
    (generateDBCacheSecondary repo).2 = some e ∧
    (applyCycleWrites w repo).isUpdated = true := by
  refine ⟨?_, ?_, applyCycleWrites_isUpdated w repo⟩
  · obtain ⟨dr, dc, up, dn, iu⟩ := w
    have hr2 : dr = some repo := hr
    subst hr2
    rfl
  · simp [generateDBCacheSecondary, hs]

theorem c6_witness :
    wStale.runSecondaryCycle = some (applyCycleWrites wStale repoFkFail) ∧
    (applyCycleWrites wStale repoFkFail).isUpdated = true :=
  ⟨(c6_secondary_failure_swallowed wStale repoFkFail
      (DBError.queryError "foreign key query failed") rfl rfl).1,
   (c6_secondary_failure_swallowed wStale repoFkFail
      (DBError.queryError "foreign key query failed") rfl rfl).2.2⟩

/-- C3 (amended): when a secondary refresh cycle fails, the worker
still installs the sub-map values returned by the failing generator
(the Go zero values, i.e. the empty maps, under the spec-modelled
convention) over the installed cache: the columns and foreign-keys
sub-maps are overwritten, not preserved. -/
theorem c3_amended_failure_overwrites_submaps (w : Worker)
    (repo : DBRepository) (cache : DBCache) (e : DBError)
    (hr : w.dbRepo = some repo) (hc : w.dbCache = some cache)
    (hs : repo.secondaryResult = Except.error e) :
    w.runSecondaryCycle = some { w with
      dbCache := some { cache with ColumnsWithParent := [], ForeignKeys := [] },
      isUpdated := true } := by
  obtain ⟨dr, dc, up, dn, iu⟩ := w
  have hr2 : dr = some repo := hr
  have hc2 : dc = some cache := hc
  subst hr2
  subst hc2
  simp [Worker.runSecondaryCycle, applyCycleWrites, Worker.setColumnCache,
    Worker.setForeignKeysCache, generateDBCacheSecondary, hs]

theorem c3_witness :
    wStale.runSecondaryCycle = some { wStale with
      dbCache := some { cacheFull with ColumnsWithParent := [], ForeignKeys := [] },
      isUpdated := true } :=
  c3_amended_failure_overwrites_submaps wStale repoFkFail cacheFull
    (DBError.queryError "foreign key query failed") rfl rfl rfl

/-- C3 is false as stated: `wStale` has an installed cache with
non-empty columns and foreign-keys sub-maps and a repository whose
detail query fails; the failing cycle replaces both sub-maps (with the
generator's zero-value results) instead of leaving them exactly as
they were. -/
theorem c3_counterexample :
    wStale.runSecondaryCycle = some { wStale with
      dbCache := some { cacheFull with ColumnsWithParent := [], ForeignKeys := [] },
      isUpdated := true } ∧
    some { cacheFull with ColumnsWithParent := [], ForeignKeys := [] } ≠
      wStale.dbCache := by
  constructor
  · rfl
  · decide

/-- C4 (amended): the pending slot (the capacity-one `update` channel)
holds at most one outstanding request, and completed refresh cycles
never exceed issued requests — counting the pending slot and a running
cycle body, the outstanding work is fully accounted for by the
requests.  (A request issued while one is pending is however not
dropped: the send blocks the caller, see the counterexample.) -/
theorem c4_amended_cycles_bounded (c : Config) (h : Reach initConfig c) :
    c.cycleCount + (if c.worker.updatePending then 1 else 0) +
      (if c.running then 1 else 0) ≤ c.reqCount ∧
    c.cycleCount ≤ c.reqCount := by
  have h2 := (reach_workerInv c h).2
  exact ⟨h2, by omega⟩

theorem c4_witness : cfgAfterBind.cycleCount ≤ cfgAfterBind.reqCount :=
  (c4_amended_cycles_bounded cfgAfterBind
    (Relation.ReflTransGen.single
      (Step.bindOk initConfig repoOk cfgAfterBind.worker rfl))).2

/-- C4 is false as stated: in the reachable configuration after one
successful `ReCache` the update slot is full, and a second secondary
refresh request — the unguarded send `w.update <- struct{}{}` — blocks
its caller (`sendUpdate` does not complete) instead of being dropped as
a no-op. -/
theorem c4_counterexample :
    Reach initConfig cfgAfterBind ∧
    cfgAfterBind.worker.sendUpdate = none :=
  ⟨Relation.ReflTransGen.single
    (Step.bindOk initConfig repoOk cfgAfterBind.worker rfl), rfl⟩

/-- C5 (amended): the readiness probe reads `false` from the moment
the worker begins processing a requested refresh (dequeuing the request
clears the flag) until that refresh completes; and the completed
refresh's sub-map writes are installed by the same step that sets the
flag, so the flag reads `true` only with the writes visible.  (Between
the request being issued and processing beginning, the flag retains its
previous value — see the counterexample.) -/
theorem c5_amended_flag_processing_window :
    (∀ c : Config, Reach initConfig c → c.running = true →
      c.worker.UpdateCompleted = false) ∧
    (∀ (w : Worker) (repo : DBRepository) (cache : DBCache),
      w.dbCache = some cache →
      (applyCycleWrites w repo).UpdateCompleted = true ∧
      (applyCycleWrites w repo).dbCache = some { cache with
        ColumnsWithParent := (generateDBCacheSecondary repo).1.1,
        ForeignKeys := (generateDBCacheSecondary repo).1.2 }) :=
  ⟨fun c h hr => (reach_workerInv c h).1 hr,
   fun w repo cache hc =>
     ⟨applyCycleWrites_isUpdated w repo,
      applyCycleWrites_cache_some w repo cache hc⟩⟩

theorem c5_witness :
    cfgMid.worker.UpdateCompleted = false ∧
    (applyCycleWrites wStale repoFkFail).UpdateCompleted = true :=
  ⟨c5_amended_flag_processing_window.1 cfgMid
    (Relation.ReflTransGen.tail
      (Relation.ReflTransGen.single
        (Step.bindOk initConfig repoOk cfgAfterBind.worker rfl))
      (Step.beginCycle cfgAfterBind rfl rfl)) rfl,
   (c5_amended_flag_processing_window.2 wStale repoFkFail cacheFull rfl).1⟩

/-- C5 is false as stated: in the reachable configuration after a
completed refresh cycle followed by a second successful `ReCache`, a
secondary refresh has been requested (the update slot is full) and has
not completed, yet the readiness probe still reads `true` — the flag is
cleared only when the background loop dequeues the request, not at
request time. -/
theorem c5_counterexample :
    Reach initConfig cfgSecondBind ∧
    cfgSecondBind.worker.updatePending = true ∧
    cfgSecondBind.worker.UpdateCompleted = true := by
  refine ⟨?_, rfl, rfl⟩
  have s1 : Step initConfig cfgAfterBind :=
    Step.bindOk initConfig repoOk cfgAfterBind.worker rfl
  have s2 : Step cfgAfterBind cfgMid :=
    Step.beginCycle cfgAfterBind rfl rfl
  have s3 : Step cfgMid cfgDone :=
    Step.finishCycle cfgMid repoOk rfl rfl
  have s4 : Step cfgDone cfgSecondBind :=
    Step.bindOk cfgDone repoOk cfgSecondBind.worker rfl
  exact Relation.ReflTransGen.tail
    (Relation.ReflTransGen.tail
      (Relation.ReflTransGen.tail (Relation.ReflTransGen.single s1) s2) s3) s4

end Sqls
